import Mathlib

/-!
Shallow embedding of `cluster_professors.py` (SuperviseMe): the resumable,
rate-limited batch classification pipeline.  Python dicts are modelled as
association lists with Python-dict update semantics (replace the existing
binding in place, otherwise append), JSON values as an inductive `Json`
type, the remote LLM endpoint as an oracle giving the outcome of each HTTP
attempt, and `json.loads` as an abstract parse function parameter (its
successful result at this call site is always a JSON object, because the
parsed substring starts at a brace character).
-/

set_option autoImplicit false

namespace SuperviseMe

/-- JSON values, as produced by `json.loads` / consumed by `json.dump`. -/
inductive Json where
  | str (s : String)
  | num (n : Int)
  | bool (b : Bool)
  | null
  | arr (elems : List Json)
  | obj (fields : List (String × Json))
  deriving Repr

mutual

/-- Structural equality of JSON values (Python `==` on parsed JSON). -/
def Json.beq : Json → Json → Bool
  | .str a, .str b => a == b
  | .num a, .num b => a == b
  | .bool a, .bool b => a == b
  | .null, .null => true
  | .arr a, .arr b => Json.beqList a b
  | .obj a, .obj b => Json.beqFields a b
  | _, _ => false

/-- Elementwise equality of JSON arrays. -/
def Json.beqList : List Json → List Json → Bool
  | [], [] => true
  | a :: as, b :: bs => Json.beq a b && Json.beqList as bs
  | _, _ => false

/-- Fieldwise equality of JSON objects. -/
def Json.beqFields : List (String × Json) → List (String × Json) → Bool
  | [], [] => true
  | (k1, v1) :: as, (k2, v2) :: bs => k1 == k2 && Json.beq v1 v2 && Json.beqFields as bs
  | _, _ => false

end

instance : BEq Json := ⟨Json.beq⟩

/-- First binding of a key in an association list (Python dict lookup:
keys of a Python dict are unique, so the first binding is the binding). -/
def lookupA {α β : Type} [DecidableEq α] : List (α × β) → α → Option β
  | [], _ => none
  | (k0, v0) :: rest, k => if k0 = k then some v0 else lookupA rest k

/-- Python `k in d` membership test on a dict. -/
def hasKeyA {α β : Type} [DecidableEq α] (kvs : List (α × β)) (k : α) : Bool :=
  (lookupA kvs k).isSome

/-- Python dict assignment `d[k] = v`: replace the existing binding in
place, otherwise append a new binding at the end (insertion order). -/
def pyInsert {α β : Type} [DecidableEq α] : List (α × β) → α → β → List (α × β)
  | [], k, v => [(k, v)]
  | (k0, v0) :: rest, k, v =>
      if k0 = k then (k0, v) :: rest else (k0, v0) :: pyInsert rest k v

/-- Keys of an association list are pairwise distinct (always true of a
list that mirrors a Python dict). -/
def keysNodup {α β : Type} (kvs : List (α × β)) : Prop :=
  (kvs.map Prod.fst).Nodup

@[simp] theorem lookupA_nil {α β : Type} [DecidableEq α] (k : α) :
    lookupA ([] : List (α × β)) k = none := rfl

theorem lookupA_cons {α β : Type} [DecidableEq α] (k0 : α) (v0 : β)
    (rest : List (α × β)) (k : α) :
    lookupA ((k0, v0) :: rest) k = if k0 = k then some v0 else lookupA rest k := rfl

theorem lookupA_pyInsert_self {α β : Type} [DecidableEq α]
    (kvs : List (α × β)) (k : α) (v : β) :
    lookupA (pyInsert kvs k v) k = some v := by
  induction kvs with
  | nil => simp [pyInsert, lookupA]
  | cons hd tl ih =>
      obtain ⟨k0, v0⟩ := hd
      by_cases h : k0 = k
      · simp [pyInsert, h, lookupA]
      · simp [pyInsert, h, lookupA, ih]

theorem lookupA_pyInsert_ne {α β : Type} [DecidableEq α]
    (kvs : List (α × β)) (k k' : α) (v : β) (h : k' ≠ k) :
    lookupA (pyInsert kvs k v) k' = lookupA kvs k' := by
  induction kvs with
  | nil =>
      have hne : k ≠ k' := fun hk => h hk.symm
      simp [pyInsert, lookupA, hne]
  | cons hd tl ih =>
      obtain ⟨k0, v0⟩ := hd
      by_cases h0 : k0 = k
      · subst h0
        have hne : k0 ≠ k' := fun hk => h hk.symm
        simp [pyInsert, lookupA, hne]
      · simp [pyInsert, h0, lookupA, ih]

theorem hasKeyA_pyInsert_self {α β : Type} [DecidableEq α]
    (kvs : List (α × β)) (k : α) (v : β) :
    hasKeyA (pyInsert kvs k v) k = true := by
  simp [hasKeyA, lookupA_pyInsert_self]

theorem hasKeyA_pyInsert_mono {α β : Type} [DecidableEq α]
    (kvs : List (α × β)) (k k' : α) (v : β)
    (h : hasKeyA kvs k' = true) :
    hasKeyA (pyInsert kvs k v) k' = true := by
  by_cases he : k' = k
  · subst he; exact hasKeyA_pyInsert_self kvs k' v
  · simpa [hasKeyA, lookupA_pyInsert_ne kvs k k' v he] using h

theorem pyInsert_map_fst_of_hasKey {α β : Type} [DecidableEq α]
    (kvs : List (α × β)) (k : α) (v : β) (h : hasKeyA kvs k = true) :
    (pyInsert kvs k v).map Prod.fst = kvs.map Prod.fst := by
  induction kvs with
  | nil => simp [hasKeyA, lookupA] at h
  | cons hd tl ih =>
      obtain ⟨k0, v0⟩ := hd
      by_cases h0 : k0 = k
      · simp [pyInsert, h0]
      · simp only [hasKeyA, lookupA, h0, if_neg h0] at h
        simp [pyInsert, h0, ih h]

theorem pyInsert_map_fst_of_not_hasKey {α β : Type} [DecidableEq α]
    (kvs : List (α × β)) (k : α) (v : β) (h : hasKeyA kvs k = false) :
    (pyInsert kvs k v).map Prod.fst = kvs.map Prod.fst ++ [k] := by
  induction kvs with
  | nil => simp [pyInsert]
  | cons hd tl ih =>
      obtain ⟨k0, v0⟩ := hd
      by_cases h0 : k0 = k
      · simp [hasKeyA, lookupA, h0] at h
      · simp only [hasKeyA, lookupA, h0, if_neg h0] at h
        simp [pyInsert, h0, ih h]

theorem hasKeyA_iff_mem_keys {α β : Type} [DecidableEq α]
    (kvs : List (α × β)) (k : α) :
    hasKeyA kvs k = true ↔ k ∈ kvs.map Prod.fst := by
  induction kvs with
  | nil => simp [hasKeyA, lookupA]
  | cons hd tl ih =>
      obtain ⟨k0, v0⟩ := hd
      by_cases h0 : k0 = k
      · simp [hasKeyA, lookupA, h0]
      · simpa [hasKeyA, lookupA, h0, Ne.symm h0] using ih

theorem keysNodup_pyInsert {α β : Type} [DecidableEq α]
    (kvs : List (α × β)) (k : α) (v : β) (h : keysNodup kvs) :
    keysNodup (pyInsert kvs k v) := by
  by_cases hk : hasKeyA kvs k = true
  · unfold keysNodup
    rw [pyInsert_map_fst_of_hasKey kvs k v hk]
    exact h
  · unfold keysNodup
    rw [pyInsert_map_fst_of_not_hasKey kvs k v (by simpa using hk)]
    have hkk : k ∉ kvs.map Prod.fst := by
      intro hmem
      exact hk ((hasKeyA_iff_mem_keys kvs k).mpr hmem)
    rw [List.nodup_append]
    refine ⟨h, List.nodup_singleton k, ?_⟩
    intro a ha hb
    simp only [List.mem_singleton] at hb
    subst hb
    exact hkk ha

/-- The character U+007B, an opening curly brace. -/
def braceOpen : Char := Char.ofNat 123

/-- The character U+007D, a closing curly brace. -/
def braceClose : Char := Char.ofNat 125

/-- Index of the first occurrence of a character (Python `str.find`,
with `none` standing for Python's `-1`). -/
def charFindIdx (l : List Char) (c : Char) : Option Nat :=
  match l with
  | [] => none
  | x :: xs =>
      if x = c then some 0
      else (charFindIdx xs c).map (· + 1)

/-- Index of the last occurrence of a character (Python `str.rfind`,
with `none` standing for Python's `-1`). -/
def charRFindIdx (l : List Char) (c : Char) : Option Nat :=
  match l with
  | [] => none
  | x :: xs =>
      match charRFindIdx xs c with
      | some i => some (i + 1)
      | none => if x = c then some 0 else none

/-- Python slice `s[a:b]` for non-negative bounds. -/
def pySlice (s : String) (a b : Nat) : String :=
  String.mk ((s.data.drop a).take (b - a))

/-- Outcome of one HTTP attempt of the LLM client, as classified by
`call_openrouter_api` (lines 78-121): a 200 answer with the model's text,
a 429 throttling response, another non-200 status, or a raised transport
exception. -/
inductive ApiOutcome where
  | ok (content : String)
  | status429
  | statusOther (code : Nat)
  | exn (msg : String)

/-- Retry loop of `call_openrouter_api` (lines 78-124).  `outcome n` is
the result of the HTTP attempt with 0-based index `n`; `remaining` is the
number of loop iterations left of `for attempt in range(max_retries)`.
Returns the value produced (`some` content on a 200 answer, `none` when
the budget is exhausted or the last attempt fails) paired with the list
of back-off sleeps performed, in seconds, in order. -/
def callAux (outcome : Nat → ApiOutcome) (maxRetries attempt remaining : Nat) :
    Option String × List Nat :=
  match remaining with
  | 0 => (none, [])
  | r + 1 =>
      match outcome attempt with
      | .ok c => (some c, [])
      | .status429 =>
          let w := min (30 * 2 ^ attempt) 300
          let rest := callAux outcome maxRetries (attempt + 1) r
          (rest.1, w :: rest.2)
      | .statusOther _ =>
          if attempt < maxRetries - 1 then
            let rest := callAux outcome maxRetries (attempt + 1) r
            (rest.1, 10 * (attempt + 1) :: rest.2)
          else (none, [])
      | .exn _ =>
          if attempt < maxRetries - 1 then
            let rest := callAux outcome maxRetries (attempt + 1) r
            (rest.1, 15 * (attempt + 1) :: rest.2)
          else (none, [])

/-- `call_openrouter_api` (lines 73-124): rate-limit gate (a sleep, not
modelled in the wait list, which records only the retry back-offs), then
up to `maxRetries` HTTP attempts. -/
def call_openrouter_api (outcome : Nat → ApiOutcome) (maxRetries : Nat) :
    Option String × List Nat :=
  callAux outcome maxRetries 0 maxRetries

/-- JSON-payload extraction of lines 177-180: `json_start = response.find(
brace)`, `json_end = response.rfind(close brace) + 1`, then the slice
`response[json_start:json_end]`.  Python's guard `json_end != -1` is
vacuous because `rfind` returns at least `-1` and `1` is added to it, so
the only way to reach the `"Invalid JSON response"` branch is a response
without any opening brace (`none` here). -/
def responseSlice (resp : String) : Option String :=
  match charFindIdx resp.data braceOpen with
  | none => none
  | some js =>
      let je := match charRFindIdx resp.data braceClose with
        | some i => i + 1
        | none => 0
      some (pySlice resp js je)

/-- Lines 174-189 of `process_professor`: handling of a non-`None` answer
text from `call_openrouter_api`.  `parse` models `json.loads` restricted
to this call site; on success it yields the parsed object's fields (a
string that `json.loads` accepts and that starts with an opening brace
always parses to an object), on failure the `JSONDecodeError` message. -/
def handleResponse (parse : String → Except String (List (String × Json)))
    (ts resp : String) : List (String × Json) :=
  match responseSlice resp with
  | none => [("error", Json.str "Invalid JSON response"), ("raw_response", Json.str resp)]
  | some jsonStr =>
      match parse jsonStr with
      | .ok kvs => pyInsert kvs "processing_timestamp" (Json.str ts)
      | .error e =>
          [("error", Json.str ("JSON parsing failed: " ++ e)),
           ("raw_response", Json.str resp)]

/-- One thesis record of the input mapping (schema of §6: `program`,
`role`, `thesis`, all strings, as produced by the scraper). -/
structure Thesis where
  program : String
  role : String
  thesis : String
  deriving DecidableEq, Repr

/-- `process_professor` (lines 161-189).  `outcome`/`maxRetries` drive the
embedded `call_openrouter_api`; `parse` models `json.loads`; `ts` models
`datetime.now().isoformat()` at the completion of the call.  The guard
`if response:` on line 174 is Python truthiness: both a `None` return of
`call_openrouter_api` and a 200 answer whose content is the empty string
are falsy and take the `else` of line 189, returning the generic
`{error: "API call failed"}` without a `raw_response` field.  Returns the
result dictionary paired with a flag telling whether `call_openrouter_api`
(and hence the rate limiter and the HTTP layer) was invoked at all. -/
def process_professor (outcome : Nat → ApiOutcome) (maxRetries : Nat)
    (parse : String → Except String (List (String × Json)))
    (ts name : String) (thesis_list : List Thesis) :
    List (String × Json) × Bool :=
  if thesis_list.isEmpty then
    ([("professor_name", Json.str name),
      ("primary_research_areas", Json.arr []),
      ("analysis_summary", Json.str "No thesis data available")], false)
  else
    match (call_openrouter_api outcome maxRetries).1 with
    | some resp =>
        if resp = "" then ([("error", Json.str "API call failed")], true)
        else (handleResponse parse ts resp, true)
    | none => ([("error", Json.str "API call failed")], true)

/-- The checkpoint object written by `save_checkpoint` (lines 52-59). -/
structure Checkpoint where
  timestamp : String
  processed_count : Nat
  results : List (String × Json)
  deriving Repr

/-- `save_checkpoint` (lines 52-59): serializes the current results with
`processed_count = len(self.results)`.  `ts` models
`datetime.now().isoformat()`. -/
def save_checkpoint (ts : String) (results : List (String × Json)) : Checkpoint :=
  { timestamp := ts, processed_count := results.length, results := results }

/-- `load_checkpoint` (lines 43-50).  The argument is the parsed content
of the checkpoint file when it exists (`none` = no file).  When the file
exists, `self.results = data.get('results', {})` and the method returns
`True`; otherwise the results are left at their initial `{}` and it
returns `False`. -/
def load_checkpoint (file : Option (List (String × Json))) : Json × Bool :=
  match file with
  | some data => ((lookupA data "results").getD (Json.obj []), true)
  | none => (Json.obj [], false)

/-- Results mapping the orchestrator starts from: the `results` field of
the loaded checkpoint.  A checkpoint whose `results` value is not a JSON
object is outside this model (the Python code would then misuse it as a
dict further down); well-formed checkpoints always store an object here. -/
def initResults (file : Option (List (String × Json))) : List (String × Json) :=
  match (load_checkpoint file).1 with
  | .obj kvs => kvs
  | _ => []

/-- Whether `area[top_level_key]` raises on line 236 for one element of
`result["primary_research_areas"]`, or the subsequent
`', '.join(areas)` raises because a collected value is not a string:
`KeyError` when the element is an object without the key, `TypeError`
when the element is not an object (string indices on a non-dict) or the
value is not a string. -/
def areaAccessRaises (a : Json) : Bool :=
  match a with
  | .obj kvs =>
      match lookupA kvs "top_level" with
      | some (.str _) => false
      | some _ => true
      | none => true
  | _ => true

/-- Whether the result-summary display (lines 235-239) raises for a
freshly stored result object: only the branch taken when the result has
no `error` key but has a `primary_research_areas` key can raise, while
iterating that value (non-iterables raise `TypeError`; iterating a string
or an object yields strings, which cannot be indexed by
`top_level_key`). -/
def summaryLineRaises (r : List (String × Json)) : Bool :=
  if hasKeyA r "error" then false
  else
    match lookupA r "primary_research_areas" with
    | some (.arr l) => l.any areaAccessRaises
    | some (.str s) => !s.isEmpty
    | some (.obj kvs) => !kvs.isEmpty
    | some _ => true
    | none => false

/-- Models `str(e)` for the exception raised by the result-summary
display; the exact text (Python's exception rendering) is irrelevant to
every property below, only the shape `{error: <text>}` matters. -/
def summaryLineErrText (_r : List (String × Json)) : String :=
  "exception while rendering result summary"

/-- Outcome of `self.process_professor(...)` on line 231 for one
professor, as an oracle: either the call returns a result dictionary, or
an exception escapes it (realizable, e.g., as the `KeyError` raised by
`create_clustering_prompt` on a thesis record without a `thesis` key,
since the input file is not validated). -/
inductive ProcOutcome where
  | returned (r : List (String × Json))
  | raised (msg : String)

/-- Observable state of one orchestrator run: the results dict, the trace
of assignments `self.results[name] = value` in order, the professors for
which `process_professor` was invoked, and the checkpoints persisted. -/
structure LoopState where
  results : List (String × Json)
  stores : List (String × Json)
  calls : List String
  saves : List Checkpoint

/-- One iteration of the `for` loop of `cluster_all_professors`
(lines 221-261) on the entry `(name, theses)`:
skip when the professor is already in the results; otherwise invoke
`process_professor` (via the oracle `proc`); when it raises, the handler
stores `{error: str(e)}` and sleeps 30 s (no checkpoint); when it
returns, store the result, then — still inside the `try` — render the
result summary (which can itself raise, upon which the handler
overwrites the entry just stored), and only on the non-raising path save
a checkpoint whenever `len(self.results) % 3 == 0`. -/
def clusterStep (ts : String) (proc : String → List Thesis → ProcOutcome)
    (st : LoopState) (entry : String × List Thesis) : LoopState :=
  let name := entry.1
  let theses := entry.2
  if hasKeyA st.results name then st
  else
    match proc name theses with
    | .raised msg =>
        { st with
          results := pyInsert st.results name (Json.obj [("error", Json.str msg)])
          stores := st.stores ++ [(name, Json.obj [("error", Json.str msg)])]
          calls := st.calls ++ [name] }
    | .returned r =>
        let results1 := pyInsert st.results name (Json.obj r)
        let st1 : LoopState :=
          { st with
            results := results1
            stores := st.stores ++ [(name, Json.obj r)]
            calls := st.calls ++ [name] }
        if summaryLineRaises r then
          let errObj := Json.obj [("error", Json.str (summaryLineErrText r))]
          { st1 with
            results := pyInsert results1 name errObj
            stores := st1.stores ++ [(name, errObj)] }
        else if results1.length % 3 = 0 then
          { st1 with saves := st1.saves ++ [save_checkpoint ts results1] }
        else st1

/-- The whole `for` loop of lines 221-261 over the input mapping in its
stored order. -/
def runLoop (ts : String) (proc : String → List Thesis → ProcOutcome)
    (input : List (String × List Thesis)) (st : LoopState) : LoopState :=
  input.foldl (clusterStep ts proc) st

/-- `cluster_all_professors` (lines 191-263): load the checkpoint, and if
`already_processed >= total_professors` return the loaded results at once
(lines 206-208, a comparison of counts only); otherwise run the loop. -/
def cluster_all_professors (ts : String) (proc : String → List Thesis → ProcOutcome)
    (file : Option (List (String × Json)))
    (professors_data : List (String × List Thesis)) : LoopState :=
  let results0 := initResults file
  if professors_data.length ≤ results0.length then
    ⟨results0, [], [], []⟩
  else
    runLoop ts proc professors_data ⟨results0, [], [], []⟩

/-- Python truthiness of a JSON value (`if top_level:`). -/
def jsonTruthy (v : Json) : Bool :=
  match v with
  | .null => false
  | .bool b => b
  | .num n => n != 0
  | .str s => !s.isEmpty
  | .arr l => !l.isEmpty
  | .obj kvs => !kvs.isEmpty

/-- Whether a JSON value is hashable in Python (usable as a dict key):
lists and dicts are not, everything else parsed from JSON is. -/
def pyHashable (v : Json) : Bool :=
  match v with
  | .arr _ => false
  | .obj _ => false
  | _ => true

/-- `second` starts `first` (used for the Python substring test). -/
def listStartsWith : List Char → List Char → Bool
  | _, [] => true
  | [], _ :: _ => false
  | a :: as, b :: bs => a == b && listStartsWith as bs

/-- Substring containment, Python `needle in hay` on strings. -/
def containsSub (hay needle : List Char) : Bool :=
  match hay with
  | [] => needle.isEmpty
  | _ :: rest => listStartsWith hay needle || containsSub rest needle

/-- Python membership `k in v`: key membership on a dict, element
membership on a list, substring test on a string, `TypeError` on
anything else. -/
def pyIn (k : String) (v : Json) : Except String Bool :=
  match v with
  | .obj kvs => .ok (hasKeyA kvs k)
  | .arr l => .ok (l.contains (Json.str k))
  | .str s => .ok (containsSub s.data k.data)
  | _ => .error "TypeError: argument is not iterable"

/-- Python `v[k]` with a string key: lookup on a dict (`KeyError` when
missing), `TypeError` on anything else. -/
def pyIndexStr (v : Json) (k : String) : Except String Json :=
  match v with
  | .obj kvs =>
      match lookupA kvs k with
      | some x => .ok x
      | none => .error ("KeyError: " ++ k)
  | _ => .error "TypeError: indices must be integers"

/-- Python iteration `for x in v`: the elements of a list, the
single-character strings of a string, the keys of a dict, `TypeError`
otherwise. -/
def iterElems (v : Json) : Except String (List Json) :=
  match v with
  | .arr l => .ok l
  | .str s => .ok (s.data.map (fun c => Json.str (String.mk [c])))
  | .obj kvs => .ok (kvs.map (fun p => Json.str p.1))
  | _ => .error "TypeError: not iterable"

/-- Lines 289-291 and 294-296: `if key not in dist: dist[key] = 0;
dist[key] += 1` on a frequency dict keyed by JSON values. -/
def bumpDist : List (Json × Nat) → Json → List (Json × Nat)
  | [], k => [(k, 1)]
  | (k0, n) :: rest, k =>
      if Json.beq k0 k then (k0, n + 1) :: rest
      else (k0, n) :: bumpDist rest k

/-- Mutable accumulator of `generate_cluster_summary`'s loop. -/
structure SummAcc where
  succ : Nat
  errs : Nat
  cat : List (Json × Nat)
  sub : List (Json × Nat)

/-- Lines 286-296: one element of `result["primary_research_areas"]`.
`top_level = area.get("top_level")` (an `AttributeError` when `area` is
not a dict); skipped when falsy; otherwise counted into the category
distribution (a `TypeError` when unhashable) and each entry of
`area.get("subcategories", [])` counted into the subcategory
distribution. -/
def summArea (acc : SummAcc) (area : Json) : Except String SummAcc :=
  match area with
  | .obj kvs =>
      match lookupA kvs "top_level" with
      | none => .ok acc
      | some tl =>
          if jsonTruthy tl then
            if pyHashable tl then
              match iterElems ((lookupA kvs "subcategories").getD (Json.arr [])) with
              | .error e => .error e
              | .ok subs =>
                  subs.foldlM (fun a s =>
                    if pyHashable s then
                      Except.ok { a with sub := bumpDist a.sub s }
                    else Except.error "TypeError: unhashable type")
                    { acc with cat := bumpDist acc.cat tl }
            else .error "TypeError: unhashable type"
          else .ok acc
  | _ => .error "AttributeError: no attribute get"

/-- Lines 280-296: one result of the results dict.  A result containing
an `error` key is tallied as an error (the `elif` never runs), else one
containing a `primary_research_areas` key is tallied as a success and
its areas are accumulated, else neither tally moves. -/
def summResult (acc : SummAcc) (result : Json) : Except String SummAcc :=
  match pyIn "error" result with
  | .error e => .error e
  | .ok true => .ok { acc with errs := acc.errs + 1 }
  | .ok false =>
      match pyIn "primary_research_areas" result with
      | .error e => .error e
      | .ok false => .ok acc
      | .ok true =>
          match pyIndexStr result "primary_research_areas" with
          | .error e => .error e
          | .ok v =>
              match iterElems v with
              | .error e => .error e
              | .ok areas => areas.foldlM summArea { acc with succ := acc.succ + 1 }

/-- The summary object of lines 272-278 as finally returned. -/
structure Summary where
  total_professors : Nat
  successfully_processed : Nat
  errors : Nat
  category_distribution : List (Json × Nat)
  subcategory_distribution : List (Json × Nat)
  deriving Repr

/-- `generate_cluster_summary` (lines 271-298), as a fallible function:
`.error` models an uncaught exception escaping the loop (possible for
malformed result values), `.ok` the returned summary dict. -/
def generate_cluster_summary (results : List (String × Json)) : Except String Summary :=
  match results.foldlM (fun a p => summResult a p.2) ⟨0, 0, [], []⟩ with
  | .error e => .error e
  | .ok acc =>
      .ok { total_professors := results.length
            successfully_processed := acc.succ
            errors := acc.errs
            category_distribution := acc.cat
            subcategory_distribution := acc.sub }

/-- A result value tallied by the `if` of lines 281-282: Python
membership `"error" in result` holds. -/
def isErrRes (v : Json) : Bool :=
  match pyIn "error" v with
  | .ok true => true
  | _ => false

/-- A result value tallied by the `elif` of lines 283-284: no `error`
key but a `primary_research_areas` key (Python membership). -/
def isSuccRes (v : Json) : Bool :=
  match pyIn "error" v with
  | .ok false =>
      match pyIn "primary_research_areas" v with
      | .ok true => true
      | _ => false
  | _ => false

/-- Number of results tallied as errors. -/
def countErr (results : List (String × Json)) : Nat :=
  results.countP (fun p => isErrRes p.2)

/-- Number of results tallied as successes. -/
def countSucc (results : List (String × Json)) : Nat :=
  results.countP (fun p => isSuccRes p.2)

/-- Success shape of a `ClassificationResult` as declared by the data
model (spec §3): `professor_name` (string), `primary_research_areas`
(array), `analysis_summary` (string), `processing_timestamp` (string).
Spec-side predicate, used to compare the code's output against the
declared shape. -/
def isSuccessShape (kvs : List (String × Json)) : Bool :=
  (match lookupA kvs "professor_name" with | some (.str _) => true | _ => false) &&
  (match lookupA kvs "primary_research_areas" with | some (.arr _) => true | _ => false) &&
  (match lookupA kvs "analysis_summary" with | some (.str _) => true | _ => false) &&
  (match lookupA kvs "processing_timestamp" with | some (.str _) => true | _ => false)

/-- Failure shape of a `ClassificationResult` as declared by the data
model (spec §3): an `error` field holding a string. -/
def isFailureShape (kvs : List (String × Json)) : Bool :=
  match lookupA kvs "error" with | some (.str _) => true | _ => false

theorem callAux_const429 (m : Nat) : ∀ (r a : Nat),
    callAux (fun _ => ApiOutcome.status429) m a r
      = (none, (List.range r).map fun k => min 300 (30 * 2 ^ (a + k))) := by
  intro r
  induction r with
  | zero => intro a; simp [callAux]
  | succ r ih =>
      intro a
      simp only [callAux, ih (a + 1)]
      rw [List.range_succ_eq_map]
      simp only [List.map_cons, List.map_map]
      refine congrArg (Prod.mk none) ?_
      refine congrArg₂ List.cons ?_ ?_
      · rw [Nat.add_zero, Nat.min_comm]
      · refine List.map_congr_left fun k _ => ?_
        have : a + 1 + k = a + (k + 1) := by omega
        rw [Function.comp_apply, this]

/-- C5.  Throttling back-off: an HTTP attempt `a` answered 429 sleeps
exactly `min(300, 30 * 2^a)` seconds; over a classification whose
attempts are all answered 429, the recorded waits are exactly that
formula over attempts `0..max_retries-1`, hence non-decreasing and capped
at 300, and the loop performs exactly `max_retries` attempts before
giving up — each 429 consumes one unit of the retry budget. -/
theorem backoff_429_policy (m : Nat) :
    (∀ (f : Nat → ApiOutcome) (mr a r : Nat), f a = ApiOutcome.status429 →
        (callAux f mr a (r + 1)).2.head? = some (min 300 (30 * 2 ^ a))) ∧
    call_openrouter_api (fun _ => ApiOutcome.status429) m
      = (none, (List.range m).map fun n => min 300 (30 * 2 ^ n)) ∧
    ((call_openrouter_api (fun _ => ApiOutcome.status429) m).2).Pairwise (· ≤ ·) ∧
    (∀ w ∈ (call_openrouter_api (fun _ => ApiOutcome.status429) m).2, w ≤ 300) ∧
    (call_openrouter_api (fun _ => ApiOutcome.status429) m).2.length = m := by
  have hmain : call_openrouter_api (fun _ => ApiOutcome.status429) m
      = (none, (List.range m).map fun n => min 300 (30 * 2 ^ n)) := by
    unfold call_openrouter_api
    rw [callAux_const429 m m 0]
    simp
  refine ⟨?_, hmain, ?_, ?_, ?_⟩
  · intro f mr a r hf
    simp [callAux, hf, Nat.min_comm]
  · rw [hmain]
    have hp : (List.range m).Pairwise (· < ·) := List.pairwise_lt_range m
    exact hp.map _ (fun a b hab => min_le_min le_rfl
      (Nat.mul_le_mul_left 30 (Nat.pow_le_pow_right (by norm_num) (le_of_lt hab))))
  · rw [hmain]
    intro w hw
    rcases List.mem_map.mp hw with ⟨n, _, rfl⟩
    exact min_le_left _ _
  · rw [hmain]
    simp

/-- Witness for C5's per-attempt clause: attempt 2 answered 429 sleeps
`min(300, 30 * 2^2) = 120` seconds. -/
theorem backoff_429_policy_witness :
    (callAux (fun _ => ApiOutcome.status429) 5 2 1).2.head? = some 120 := by
  have h := (backoff_429_policy 5).1 (fun _ => ApiOutcome.status429) 5 2 0 rfl
  simpa using h

/-- C4.  Empty-thesis short-circuit: a professor with an empty thesis
list yields the fixed success-shaped result with
`primary_research_areas = []` and the fixed explanatory summary, and the
flag is `false`: `call_openrouter_api` — and with it the rate limiter and
the HTTP layer — is never invoked. -/
theorem process_professor_empty_thesis (outcome : Nat → ApiOutcome) (maxRetries : Nat)
    (parse : String → Except String (List (String × Json))) (ts name : String) :
    process_professor outcome maxRetries parse ts name []
      = ([("professor_name", Json.str name),
          ("primary_research_areas", Json.arr []),
          ("analysis_summary", Json.str "No thesis data available")], false) := rfl

/-- C10.  A checkpoint file that exists and parses to an object without a
`results` key makes `load_checkpoint` set the results to the empty
mapping and report the checkpoint as loaded (`True`). -/
theorem load_checkpoint_missing_results (data : List (String × Json))
    (h : hasKeyA data "results" = false) :
    load_checkpoint (some data) = (Json.obj [], true) := by
  cases hl : lookupA data "results" with
  | none => simp [load_checkpoint, hl]
  | some v => simp [hasKeyA, hl] at h

/-- Witness for C10 at a file holding only a timestamp. -/
theorem load_checkpoint_missing_results_witness :
    load_checkpoint (some [("timestamp", Json.str "t")]) = (Json.obj [], true) :=
  load_checkpoint_missing_results [("timestamp", Json.str "t")] (by decide)

/-- C6 counterexample: a 200 answer whose content is the empty string is
falsy under the `if response:` guard of line 174, so the code returns
the generic `{error: "API call failed"}` — no `raw_response` field and
no parse error message — although the claim, quantified over every
HTTP-success response text, demands a failure result preserving the
(empty) unparsed text verbatim in `raw_response`. -/
theorem process_professor_malformed_cex :
    (process_professor (fun _ => ApiOutcome.ok "") 5
        (fun _ => Except.error "Expecting value") "T" "X"
        [⟨"Computer Science", "First supervisor", "A thesis"⟩]).1
      = [("error", Json.str "API call failed")] ∧
    hasKeyA (process_professor (fun _ => ApiOutcome.ok "") 5
        (fun _ => Except.error "Expecting value") "T" "X"
        [⟨"Computer Science", "First supervisor", "A thesis"⟩]).1 "raw_response"
      = false :=
  ⟨rfl, rfl⟩

/-- C6 as amended.  Malformed model output, for every HTTP-success answer
text that is non-empty (an empty-string answer is falsy under line 174's
`if response:` and yields the generic `{error: "API call failed"}`
without `raw_response`): the payload is the slice from the first opening
brace to the last closing brace inclusive (third conjunct); a text
without an opening brace yields the `Invalid JSON response` failure, and
a slice that fails to parse yields a failure carrying the parse error
message — in both cases `raw_response` preserves the whole answer text
verbatim, and `process_professor` returns instead of raising. -/
theorem process_professor_malformed (outcome : Nat → ApiOutcome) (maxRetries : Nat)
    (parse : String → Except String (List (String × Json)))
    (ts name resp : String) (thesis_list : List Thesis)
    (hne : thesis_list ≠ []) (hstr : resp ≠ "")
    (hapi : (call_openrouter_api outcome maxRetries).1 = some resp) :
    (responseSlice resp = none →
       (process_professor outcome maxRetries parse ts name thesis_list).1
         = [("error", Json.str "Invalid JSON response"),
            ("raw_response", Json.str resp)]) ∧
    (∀ s e, responseSlice resp = some s → parse s = .error e →
       (process_professor outcome maxRetries parse ts name thesis_list).1
         = [("error", Json.str ("JSON parsing failed: " ++ e)),
            ("raw_response", Json.str resp)]) ∧
    (∀ js je, charFindIdx resp.data braceOpen = some js →
       charRFindIdx resp.data braceClose = some je →
       responseSlice resp = some (pySlice resp js (je + 1))) := by
  have hemp : thesis_list.isEmpty = false := by
    cases thesis_list with
    | nil => exact absurd rfl hne
    | cons a l => rfl
  refine ⟨?_, ?_, ?_⟩
  · intro hs
    simp [process_professor, hemp, hapi, hstr, handleResponse, hs]
  · intro s e hs hp
    simp [process_professor, hemp, hapi, hstr, handleResponse, hs, hp]
  · intro js je hjs hje
    simp [responseSlice, hjs, hje]

/-- Witness for C6 at the spec's sample malformed answer
`Sure! {"professor_name": "X", "primary_research_areas": [}` with a
parse function failing on its brace-delimited slice. -/
theorem process_professor_malformed_witness :
    (process_professor (fun _ => ApiOutcome.ok
        "Sure! \x7b\"professor_name\": \"X\", \"primary_research_areas\": [\x7d") 5
        (fun _ => Except.error "Expecting value: line 1 column 1 (char 0)")
        "T" "X" [⟨"Computer Science", "First supervisor", "A thesis"⟩]).1
      = [("error", Json.str
            "JSON parsing failed: Expecting value: line 1 column 1 (char 0)"),
         ("raw_response", Json.str
            "Sure! \x7b\"professor_name\": \"X\", \"primary_research_areas\": [\x7d")] := by
  have h := (process_professor_malformed
      (fun _ => ApiOutcome.ok
        "Sure! \x7b\"professor_name\": \"X\", \"primary_research_areas\": [\x7d") 5
      (fun _ => Except.error "Expecting value: line 1 column 1 (char 0)")
      "T" "X"
      "Sure! \x7b\"professor_name\": \"X\", \"primary_research_areas\": [\x7d"
      [⟨"Computer Science", "First supervisor", "A thesis"⟩]
      (by simp) (by decide) rfl).2.1
  exact h "\x7b\"professor_name\": \"X\", \"primary_research_areas\": [\x7d"
    "Expecting value: line 1 column 1 (char 0)" rfl rfl

theorem clusterStep_hasKey_mono (ts : String) (proc : String → List Thesis → ProcOutcome)
    (st : LoopState) (entry : String × List Thesis) (k : String)
    (h : hasKeyA st.results k = true) :
    hasKeyA (clusterStep ts proc st entry).results k = true := by
  unfold clusterStep
  by_cases hk : hasKeyA st.results entry.1
  · simp [hk, h]
  · simp only [hk, Bool.false_eq_true, if_false]
    cases proc entry.1 entry.2 with
    | raised msg => exact hasKeyA_pyInsert_mono _ _ _ _ h
    | returned r =>
        by_cases hr : summaryLineRaises r
        · simp only [hr, if_true]
          exact hasKeyA_pyInsert_mono _ _ _ _ (hasKeyA_pyInsert_mono _ _ _ _ h)
        · by_cases hm : (pyInsert st.results entry.1 (Json.obj r)).length % 3 = 0
          · simp only [hr, hm, if_true, if_false]
            exact hasKeyA_pyInsert_mono _ _ _ _ h
          · simp only [hr, hm, if_false]
            exact hasKeyA_pyInsert_mono _ _ _ _ h

theorem clusterStep_hasKey_self (ts : String) (proc : String → List Thesis → ProcOutcome)
    (st : LoopState) (name : String) (theses : List Thesis) :
    hasKeyA (clusterStep ts proc st (name, theses)).results name = true := by
  unfold clusterStep
  by_cases hk : hasKeyA st.results name
  · simp [hk]
  · simp only [hk, Bool.false_eq_true, if_false]
    cases proc name theses with
    | raised msg => exact hasKeyA_pyInsert_self _ _ _
    | returned r =>
        by_cases hr : summaryLineRaises r
        · simp only [hr, if_true]
          exact hasKeyA_pyInsert_self _ _ _
        · by_cases hm : (pyInsert st.results name (Json.obj r)).length % 3 = 0
          · simp only [hr, hm, if_true, if_false]
            exact hasKeyA_pyInsert_self _ _ _
          · simp only [hr, hm, if_false]
            exact hasKeyA_pyInsert_self _ _ _

theorem clusterStep_preserves (ts : String) (proc : String → List Thesis → ProcOutcome)
    (st : LoopState) (entry : String × List Thesis) (k : String)
    (h : hasKeyA st.results k = true) :
    lookupA (clusterStep ts proc st entry).results k = lookupA st.results k ∧
    (k ∈ (clusterStep ts proc st entry).calls ↔ k ∈ st.calls) := by
  unfold clusterStep
  by_cases hk : hasKeyA st.results entry.1
  · simp [hk]
  · have hne : k ≠ entry.1 := by
      intro hke
      rw [hke] at h
      exact absurd h (by simp [hk])
    have hmem : ∀ l : List String, k ∈ l ++ [entry.1] ↔ k ∈ l := by
      intro l
      simp [List.mem_append, hne]
    simp only [hk, Bool.false_eq_true, if_false]
    cases proc entry.1 entry.2 with
    | raised msg =>
        exact ⟨lookupA_pyInsert_ne _ _ _ _ hne, hmem st.calls⟩
    | returned r =>
        by_cases hr : summaryLineRaises r
        · simp only [hr, if_true]
          refine ⟨?_, hmem st.calls⟩
          rw [lookupA_pyInsert_ne _ _ _ _ hne, lookupA_pyInsert_ne _ _ _ _ hne]
        · by_cases hm : (pyInsert st.results entry.1 (Json.obj r)).length % 3 = 0
          · simp only [hr, hm, if_true, if_false]
            exact ⟨lookupA_pyInsert_ne _ _ _ _ hne, hmem st.calls⟩
          · simp only [hr, hm, if_false]
            exact ⟨lookupA_pyInsert_ne _ _ _ _ hne, hmem st.calls⟩

theorem clusterStep_keysNodup (ts : String) (proc : String → List Thesis → ProcOutcome)
    (st : LoopState) (entry : String × List Thesis)
    (h : keysNodup st.results) :
    keysNodup (clusterStep ts proc st entry).results := by
  unfold clusterStep
  by_cases hk : hasKeyA st.results entry.1
  · simpa [hk] using h
  · simp only [hk, Bool.false_eq_true, if_false]
    cases proc entry.1 entry.2 with
    | raised msg => exact keysNodup_pyInsert _ _ _ h
    | returned r =>
        by_cases hr : summaryLineRaises r
        · simp only [hr, if_true]
          exact keysNodup_pyInsert _ _ _ (keysNodup_pyInsert _ _ _ h)
        · by_cases hm : (pyInsert st.results entry.1 (Json.obj r)).length % 3 = 0
          · simp only [hr, hm, if_true, if_false]
            exact keysNodup_pyInsert _ _ _ h
          · simp only [hr, hm, if_false]
            exact keysNodup_pyInsert _ _ _ h

theorem clusterStep_saves_inv (ts : String) (proc : String → List Thesis → ProcOutcome)
    (st : LoopState) (entry : String × List Thesis)
    (h : ∀ c ∈ st.saves, c.processed_count = c.results.length) :
    ∀ c ∈ (clusterStep ts proc st entry).saves,
      c.processed_count = c.results.length := by
  unfold clusterStep
  by_cases hk : hasKeyA st.results entry.1
  · simpa [hk] using h
  · simp only [hk, Bool.false_eq_true, if_false]
    cases proc entry.1 entry.2 with
    | raised msg => simpa using h
    | returned r =>
        by_cases hr : summaryLineRaises r
        · simpa [hr] using h
        · by_cases hm : (pyInsert st.results entry.1 (Json.obj r)).length % 3 = 0
          · simp only [hr, hm, if_true, if_false]
            intro c hc
            rcases List.mem_append.mp hc with hc | hc
            · exact h c hc
            · simp only [List.mem_singleton] at hc
              subst hc
              rfl
          · simpa [hr, hm] using h

theorem runLoop_hasKey_mono (ts : String) (proc : String → List Thesis → ProcOutcome)
    (input : List (String × List Thesis)) :
    ∀ (st : LoopState) (k : String), hasKeyA st.results k = true →
      hasKeyA (runLoop ts proc input st).results k = true := by
  induction input with
  | nil => intro st k h; exact h
  | cons hd tl ih =>
      intro st k h
      exact ih (clusterStep ts proc st hd) k (clusterStep_hasKey_mono ts proc st hd k h)

theorem runLoop_covers (ts : String) (proc : String → List Thesis → ProcOutcome)
    (input : List (String × List Thesis)) :
    ∀ (st : LoopState), ∀ p ∈ input,
      hasKeyA (runLoop ts proc input st).results p.1 = true := by
  induction input with
  | nil => intro st p hp; exact absurd hp (List.not_mem_nil p)
  | cons hd tl ih =>
      intro st p hp
      rcases List.mem_cons.mp hp with hp | hp
      · subst hp
        exact runLoop_hasKey_mono ts proc tl (clusterStep ts proc st p) p.1
          (clusterStep_hasKey_self ts proc st p.1 p.2)
      · exact ih (clusterStep ts proc st hd) p hp

theorem runLoop_keysNodup (ts : String) (proc : String → List Thesis → ProcOutcome)
    (input : List (String × List Thesis)) :
    ∀ (st : LoopState), keysNodup st.results →
      keysNodup (runLoop ts proc input st).results := by
  induction input with
  | nil => intro st h; exact h
  | cons hd tl ih =>
      intro st h
      exact ih (clusterStep ts proc st hd) (clusterStep_keysNodup ts proc st hd h)

theorem runLoop_preserves (ts : String) (proc : String → List Thesis → ProcOutcome)
    (input : List (String × List Thesis)) :
    ∀ (st : LoopState) (k : String), hasKeyA st.results k = true →
      lookupA (runLoop ts proc input st).results k = lookupA st.results k ∧
      (k ∈ (runLoop ts proc input st).calls ↔ k ∈ st.calls) := by
  induction input with
  | nil => intro st k _; exact ⟨rfl, Iff.rfl⟩
  | cons hd tl ih =>
      intro st k h
      have hstep := clusterStep_preserves ts proc st hd k h
      have hkeep := clusterStep_hasKey_mono ts proc st hd k h
      have htail := ih (clusterStep ts proc st hd) k hkeep
      exact ⟨htail.1.trans hstep.1, htail.2.trans hstep.2⟩

theorem runLoop_saves_inv (ts : String) (proc : String → List Thesis → ProcOutcome)
    (input : List (String × List Thesis)) :
    ∀ (st : LoopState), (∀ c ∈ st.saves, c.processed_count = c.results.length) →
      ∀ c ∈ (runLoop ts proc input st).saves,
        c.processed_count = c.results.length := by
  induction input with
  | nil => intro st h; exact h
  | cons hd tl ih =>
      intro st h
      exact ih (clusterStep ts proc st hd) (clusterStep_saves_inv ts proc st hd h)

/-- C7.  Checkpoint consistency: `save_checkpoint` always writes
`processed_count` equal to the number of entries of the serialized
results, and consequently every checkpoint persisted during a run of
`cluster_all_professors` satisfies `processed_count == len(results)`. -/
theorem checkpoint_consistency (ts : String) (proc : String → List Thesis → ProcOutcome)
    (file : Option (List (String × Json))) (input : List (String × List Thesis))
    (rs : List (String × Json)) :
    (save_checkpoint ts rs).processed_count = (save_checkpoint ts rs).results.length ∧
    ∀ c ∈ (cluster_all_professors ts proc file input).saves,
      c.processed_count = c.results.length := by
  refine ⟨rfl, ?_⟩
  unfold cluster_all_professors
  by_cases hle : input.length ≤ (initResults file).length
  · simp [hle]
  · simp only [hle, if_false]
    exact runLoop_saves_inv ts proc input ⟨initResults file, [], [], []⟩ (by simp)

/-- A representative well-formed thesis record, used by concrete runs. -/
def sampleThesis : Thesis := ⟨"Computer Science", "First supervisor", "A thesis"⟩

/-- A schema-conforming model result for professor `n` (no timestamp yet,
as returned by the parse before line 182 adds it). -/
def okResultObj (n : String) : List (String × Json) :=
  [("professor_name", Json.str n),
   ("primary_research_areas", Json.arr []),
   ("analysis_summary", Json.str "s")]

/-- Oracle: every professor's `process_professor` returns a
schema-conforming result. -/
def procAllOk : String → List Thesis → ProcOutcome :=
  fun n _ => ProcOutcome.returned (okResultObj n)

/-- A three-professor input mapping. -/
def inputABC : List (String × List Thesis) :=
  [("A", [sampleThesis]), ("B", [sampleThesis]), ("C", [sampleThesis])]

/-- The checkpoint persisted by the all-successful run over `inputABC`. -/
def savedABC : Checkpoint :=
  { timestamp := "TS"
    processed_count := 3
    results := [("A", Json.obj (okResultObj "A")),
                ("B", Json.obj (okResultObj "B")),
                ("C", Json.obj (okResultObj "C"))] }

/-- Witness for C7: the one checkpoint persisted by a concrete
three-professor run satisfies the invariant. -/
theorem checkpoint_consistency_witness :
    savedABC.processed_count = savedABC.results.length := by
  have hs : (cluster_all_professors "TS" procAllOk none inputABC).saves = [savedABC] := rfl
  refine (checkpoint_consistency "TS" procAllOk none inputABC []).2 savedABC ?_
  rw [hs]
  exact List.Mem.head _

/-- C1 counterexample: a pre-loaded checkpoint holding two professors
`A`, `B` foreign to the one-professor input `X` makes the early count
comparison of lines 206-208 return at once — `cluster_all_professors`
returns normally, yet `X` has no entry and `process_professor` was never
invoked. -/
def cexFile1 : Option (List (String × Json)) :=
  some [("timestamp", Json.str "t"), ("processed_count", Json.num 2),
        ("results", Json.obj [("A", Json.obj [("error", Json.str "x")]),
                              ("B", Json.obj [("error", Json.str "y")])])]

/-- Oracle used in the C1 counterexample (never reached). -/
def procReturnsEmpty : String → List Thesis → ProcOutcome :=
  fun _ _ => ProcOutcome.returned []

/-- C1 counterexample theorem: the run returns with no entry for the
input professor `X` and without any processing step. -/
theorem cluster_all_complete_cex :
    hasKeyA (cluster_all_professors "T" procReturnsEmpty cexFile1
        [("X", [sampleThesis])]).results "X" = false ∧
    (cluster_all_professors "T" procReturnsEmpty cexFile1
        [("X", [sampleThesis])]).calls = [] :=
  ⟨rfl, rfl⟩

/-- C1 as amended.  When the early `already_processed >= total_professors`
return of lines 206-208 is not taken — the loaded checkpoint has fewer
entries than the input has professors — the run ends with a
duplicate-free results mapping containing an entry for every professor
key of the input. -/
theorem cluster_all_complete (ts : String) (proc : String → List Thesis → ProcOutcome)
    (file : Option (List (String × Json))) (input : List (String × List Thesis))
    (hlt : (initResults file).length < input.length)
    (hnd : keysNodup (initResults file)) :
    keysNodup (cluster_all_professors ts proc file input).results ∧
    ∀ p ∈ input, hasKeyA (cluster_all_professors ts proc file input).results p.1 = true := by
  unfold cluster_all_professors
  have hle : ¬ input.length ≤ (initResults file).length := by omega
  simp only [hle, if_false]
  exact ⟨runLoop_keysNodup ts proc input _ hnd,
         fun p hp => runLoop_covers ts proc input _ p hp⟩

/-- Witness for C1 (amended) on a concrete one-professor run without a
checkpoint. -/
theorem cluster_all_complete_witness :
    keysNodup (cluster_all_professors "T" procAllOk none
        [("A", [sampleThesis])]).results ∧
    ∀ p ∈ [("A", [sampleThesis])],
      hasKeyA (cluster_all_professors "T" procAllOk none
          [("A", [sampleThesis])]).results p.1 = true :=
  cluster_all_complete "T" procAllOk none [("A", [sampleThesis])]
    (by decide) List.Pairwise.nil

/-- Oracle whose returned result makes the result-summary display of
line 236 raise: the result has a `primary_research_areas` list whose
element is an object without a `top_level` key (`KeyError`). -/
def procDisplayRaises : String → List Thesis → ProcOutcome :=
  fun _ _ => ProcOutcome.returned [("primary_research_areas", Json.arr [Json.obj []])]

/-- C2 counterexample: the entry stored for `P` on line 232 is
overwritten by the per-professor exception handler on line 258 after the
display of line 236 raises — the store trace shows two different values
assigned to `P`, and the final entry is the second. -/
theorem cluster_overwrite_cex :
    (cluster_all_professors "T" procDisplayRaises none
        [("P", [sampleThesis])]).stores
      = [("P", Json.obj [("primary_research_areas", Json.arr [Json.obj []])]),
         ("P", Json.obj [("error", Json.str "exception while rendering result summary")])] ∧
    Json.obj [("primary_research_areas", Json.arr [Json.obj []])]
      ≠ Json.obj [("error", Json.str "exception while rendering result summary")] ∧
    lookupA (cluster_all_professors "T" procDisplayRaises none
        [("P", [sampleThesis])]).results "P"
      = some (Json.obj [("error", Json.str "exception while rendering result summary")]) := by
  refine ⟨rfl, ?_, rfl⟩
  intro h
  simp only [Json.obj.injEq, List.cons.injEq, Prod.mk.injEq] at h
  exact absurd h.1.1 (by decide)

/-- C2 as amended.  A professor already present in the results when an
iteration starts — loaded from the checkpoint or stored by an earlier
iteration — is skipped: `process_professor` is never invoked for it and
its entry is never changed.  (The only overwrite the code can perform is
by the exception handler within the same iteration that stored the
entry, as the counterexample shows.) -/
theorem cluster_idempotent_resume (ts : String)
    (proc : String → List Thesis → ProcOutcome)
    (input : List (String × List Thesis)) (name : String) :
    (∀ st : LoopState, hasKeyA st.results name = true →
        lookupA (runLoop ts proc input st).results name = lookupA st.results name ∧
        (name ∈ (runLoop ts proc input st).calls ↔ name ∈ st.calls)) ∧
    (∀ file, hasKeyA (initResults file) name = true →
        lookupA (cluster_all_professors ts proc file input).results name
          = lookupA (initResults file) name ∧
        name ∉ (cluster_all_professors ts proc file input).calls) := by
  refine ⟨fun st h => runLoop_preserves ts proc input st name h, ?_⟩
  intro file h
  unfold cluster_all_professors
  by_cases hle : input.length ≤ (initResults file).length
  · simp [hle]
  · simp only [hle, if_false]
    have hp := runLoop_preserves ts proc input ⟨initResults file, [], [], []⟩ name h
    refine ⟨hp.1, ?_⟩
    intro hmem
    exact absurd (hp.2.mp hmem) (List.not_mem_nil name)

/-- Witness for C2 (amended): a checkpointed professor `P` keeps its
checkpoint entry and is never submitted to the client in a concrete
two-professor resume run. -/
theorem cluster_idempotent_resume_witness :
    lookupA (cluster_all_professors "T" procAllOk
        (some [("results", Json.obj [("P", Json.obj [("error", Json.str "x")])])])
        [("A", [sampleThesis]), ("P", [sampleThesis])]).results "P"
      = lookupA (initResults
          (some [("results", Json.obj [("P", Json.obj [("error", Json.str "x")])])])) "P" ∧
    "P" ∉ (cluster_all_professors "T" procAllOk
        (some [("results", Json.obj [("P", Json.obj [("error", Json.str "x")])])])
        [("A", [sampleThesis]), ("P", [sampleThesis])]).calls :=
  (cluster_idempotent_resume "T" procAllOk
      [("A", [sampleThesis]), ("P", [sampleThesis])] "P").2
    (some [("results", Json.obj [("P", Json.obj [("error", Json.str "x")])])])
    (by decide)

/-- Oracle for the C8 counterexample: professors `A` and `B` classify
fine, the call for `C` raises. -/
def procCex8 : String → List Thesis → ProcOutcome :=
  fun n _ =>
    if n = "C" then ProcOutcome.raised "boom"
    else ProcOutcome.returned (okResultObj n)

/-- C8 counterexample: the third stored entry (stored by the exception
handler of lines 256-261) brings the results to size 3, a multiple of 3,
yet no checkpoint is saved at any point of the run — the `% 3` save of
lines 252-254 sits inside the `try` and is skipped on the handler
path. -/
theorem cluster_checkpoint_cex :
    (cluster_all_professors "T" procCex8 none inputABC).saves = [] ∧
    (cluster_all_professors "T" procCex8 none inputABC).results.length = 3 ∧
    (cluster_all_professors "T" procCex8 none inputABC).results.length % 3 = 0 ∧
    lookupA (cluster_all_professors "T" procCex8 none inputABC).results "C"
      = some (Json.obj [("error", Json.str "boom")]) :=
  ⟨rfl, rfl, rfl, rfl⟩

/-- C8 as amended.  A checkpoint is persisted exactly after a
normally-completed store that brings the results size to a multiple of
3, before the next professor; stores performed by the per-professor
exception handler (and stores whose iteration raises after the store)
never trigger a save. -/
theorem clusterStep_checkpoint_policy (ts : String)
    (proc : String → List Thesis → ProcOutcome) (st : LoopState)
    (name : String) (theses : List Thesis)
    (h : hasKeyA st.results name = false) :
    (∀ msg, proc name theses = .raised msg →
        (clusterStep ts proc st (name, theses)).results
          = pyInsert st.results name (Json.obj [("error", Json.str msg)]) ∧
        (clusterStep ts proc st (name, theses)).saves = st.saves) ∧
    (∀ r, proc name theses = .returned r → summaryLineRaises r = true →
        (clusterStep ts proc st (name, theses)).saves = st.saves) ∧
    (∀ r, proc name theses = .returned r → summaryLineRaises r = false →
        (pyInsert st.results name (Json.obj r)).length % 3 = 0 →
        (clusterStep ts proc st (name, theses)).saves
          = st.saves ++ [save_checkpoint ts (pyInsert st.results name (Json.obj r))]) ∧
    (∀ r, proc name theses = .returned r → summaryLineRaises r = false →
        (pyInsert st.results name (Json.obj r)).length % 3 ≠ 0 →
        (clusterStep ts proc st (name, theses)).saves = st.saves) := by
  refine ⟨?_, ?_, ?_, ?_⟩
  · intro msg hp
    unfold clusterStep
    simp [h, hp]
  · intro r hp hr
    unfold clusterStep
    simp [h, hp, hr]
  · intro r hp hr hm
    unfold clusterStep
    simp [h, hp, hr, hm]
  · intro r hp hr hm
    unfold clusterStep
    simp [h, hp, hr, hm]

/-- The state after professors `A` and `B` of a run in which both
classified normally. -/
def stAB : LoopState :=
  { results := [("A", Json.obj (okResultObj "A")), ("B", Json.obj (okResultObj "B"))]
    stores := [("A", Json.obj (okResultObj "A")), ("B", Json.obj (okResultObj "B"))]
    calls := ["A", "B"]
    saves := [] }

/-- Witness for C8 (amended): the normally-completed third store reaches
size 3 and persists a checkpoint. -/
theorem clusterStep_checkpoint_policy_witness :
    (clusterStep "T" procAllOk stAB ("C", [sampleThesis])).saves
      = stAB.saves
        ++ [save_checkpoint "T" (pyInsert stAB.results "C" (Json.obj (okResultObj "C")))] :=
  (clusterStep_checkpoint_policy "T" procAllOk stAB "C" [sampleThesis]
      (by decide)).2.2.1 (okResultObj "C") rfl rfl (by decide)

/-- Parse oracle agreeing with `json.loads` on the empty object text. -/
def parseEmptyObj : String → Except String (List (String × Json)) :=
  fun s => if s = "\x7b\x7d" then .ok [] else .error "Expecting value"

/-- HTTP oracle: the model answers `200` with the bare text of an empty
JSON object. -/
def outcomeEmptyObj : Nat → ApiOutcome := fun _ => ApiOutcome.ok "\x7b\x7d"

/-- C3 counterexample: when the model's answer parses to the empty JSON
object, `process_professor` returns it with only `processing_timestamp`
added (line 182) — a value that is neither success-shaped nor
failure-shaped, so the claimed dichotomy fails. -/
theorem process_professor_shape_cex :
    (process_professor outcomeEmptyObj 5 parseEmptyObj "T" "X" [sampleThesis]).1
      = [("processing_timestamp", Json.str "T")] ∧
    isSuccessShape [("processing_timestamp", Json.str "T")] = false ∧
    isFailureShape [("processing_timestamp", Json.str "T")] = false :=
  ⟨rfl, rfl, rfl⟩

/-- C3 as amended.  `process_professor` returns: on an empty thesis list,
the fixed success value (without `processing_timestamp`); on API failure,
the failure value `{error: "API call failed"}`; on extraction or parse
failure, a failure-shaped value; and on a successful parse, the model's
object with `processing_timestamp` inserted — success-shaped exactly when
the model's object supplies the declared fields, so the dichotomy is
guaranteed only for schema-conforming model output. -/
theorem process_professor_shape_cases (outcome : Nat → ApiOutcome) (maxRetries : Nat)
    (parse : String → Except String (List (String × Json)))
    (ts name : String) (theses : List Thesis) :
    (theses = [] →
        process_professor outcome maxRetries parse ts name theses
          = ([("professor_name", Json.str name),
              ("primary_research_areas", Json.arr []),
              ("analysis_summary", Json.str "No thesis data available")], false)) ∧
    (theses ≠ [] → (call_openrouter_api outcome maxRetries).1 = none →
        (process_professor outcome maxRetries parse ts name theses).1
          = [("error", Json.str "API call failed")] ∧
        isFailureShape (process_professor outcome maxRetries parse ts name theses).1
          = true) ∧
    (∀ resp, theses ≠ [] → (call_openrouter_api outcome maxRetries).1 = some resp →
        ((responseSlice resp = none ∨
            ∃ s e, responseSlice resp = some s ∧ parse s = Except.error e) →
            isFailureShape (process_professor outcome maxRetries parse ts name theses).1
              = true) ∧
        (∀ s kvs, responseSlice resp = some s → parse s = Except.ok kvs →
            (process_professor outcome maxRetries parse ts name theses).1
              = pyInsert kvs "processing_timestamp" (Json.str ts))) := by
  refine ⟨?_, ?_, ?_⟩
  · intro he
    subst he
    rfl
  · intro hne hapi
    have hemp : theses.isEmpty = false := by
      cases theses with
      | nil => exact absurd rfl hne
      | cons a l => rfl
    constructor
    · simp [process_professor, hemp, hapi]
    · simp [process_professor, hemp, hapi, isFailureShape, lookupA]
  · intro resp hne hapi
    have hemp : theses.isEmpty = false := by
      cases theses with
      | nil => exact absurd rfl hne
      | cons a l => rfl
    constructor
    · intro hbad
      by_cases hre : resp = ""
      · subst hre
        simp [process_professor, hemp, hapi, isFailureShape, lookupA]
      · rcases hbad with hs | ⟨s, e, hs, hp⟩
        · simp [process_professor, hemp, hapi, hre, handleResponse, hs,
            isFailureShape, lookupA]
        · simp [process_professor, hemp, hapi, hre, handleResponse, hs, hp,
            isFailureShape, lookupA]
    · intro s kvs hs hp
      have hre : resp ≠ "" := by
        intro hcon
        rw [hcon] at hs
        have hnone : responseSlice "" = none := rfl
        rw [hnone] at hs
        cases hs
      simp [process_professor, hemp, hapi, hre, handleResponse, hs, hp]

/-- Witness for C3 (amended): the parse-success clause at a concrete
model answer, yielding the parsed object plus the timestamp. -/
theorem process_professor_shape_cases_witness :
    (process_professor outcomeEmptyObj 5 parseEmptyObj "T2" "X" [sampleThesis]).1
      = pyInsert [] "processing_timestamp" (Json.str "T2") :=
  ((process_professor_shape_cases outcomeEmptyObj 5 parseEmptyObj "T2" "X"
      [sampleThesis]).2.2 "\x7b\x7d" (List.cons_ne_nil _ _) rfl).2
    "\x7b\x7d" [] rfl rfl

theorem foldlM_except_fix {α σ : Type} (f : σ → α → Except String σ) (g : σ → Nat × Nat)
    (hf : ∀ s a s', f s a = Except.ok s' → g s' = g s) :
    ∀ (l : List α) (s s' : σ), l.foldlM f s = Except.ok s' → g s' = g s := by
  intro l
  induction l with
  | nil =>
      intro s s' h
      simp only [List.foldlM_nil] at h
      cases h
      rfl
  | cons x xs ih =>
      intro s s' h
      rw [List.foldlM_cons] at h
      cases hx : f s x with
      | error e =>
          rw [hx] at h
          simp only [bind, Except.bind] at h
          cases h
      | ok s1 =>
          rw [hx] at h
          simp only [bind, Except.bind] at h
          exact (ih s1 s' h).trans (hf s x s1 hx)

theorem subStep_counts (s : SummAcc) (a : Json) (s' : SummAcc)
    (hs : (if pyHashable a then Except.ok { s with sub := bumpDist s.sub a }
           else Except.error "TypeError: unhashable type") = Except.ok s') :
    (fun b : SummAcc => (b.succ, b.errs)) s' = (fun b : SummAcc => (b.succ, b.errs)) s := by
  by_cases hh : pyHashable a
  · rw [if_pos hh] at hs
    cases hs
    rfl
  · rw [if_neg hh] at hs
    cases hs

theorem summArea_counts (acc : SummAcc) (area : Json) (acc' : SummAcc)
    (h : summArea acc area = Except.ok acc') :
    acc'.succ = acc.succ ∧ acc'.errs = acc.errs := by
  have hkey : (acc'.succ, acc'.errs) = (acc.succ, acc.errs) := by
    unfold summArea at h
    split at h
    · split at h
      · cases h
        rfl
      · split at h
        · split at h
          · split at h
            · cases h
            · have hfx := foldlM_except_fix _ (fun b : SummAcc => (b.succ, b.errs))
                (fun s a s' hs => subStep_counts s a s' hs) _ _ _ h
              exact hfx
          · cases h
        · cases h
          rfl
    · cases h
  exact ⟨congrArg Prod.fst hkey, congrArg Prod.snd hkey⟩

theorem summAreasFold_counts (areas : List Json) (b b' : SummAcc)
    (h : areas.foldlM summArea b = Except.ok b') :
    b'.succ = b.succ ∧ b'.errs = b.errs := by
  have := foldlM_except_fix summArea (fun a : SummAcc => (a.succ, a.errs))
    (fun s a s' hs =>
      Prod.ext ((summArea_counts s a s' hs).1) ((summArea_counts s a s' hs).2))
    areas b b' h
  exact ⟨congrArg Prod.fst this, congrArg Prod.snd this⟩

theorem summResult_spec (acc : SummAcc) (v : Json) (acc' : SummAcc)
    (h : summResult acc v = Except.ok acc') :
    acc'.succ = acc.succ + (if isSuccRes v then 1 else 0) ∧
    acc'.errs = acc.errs + (if isErrRes v then 1 else 0) ∧
    (isSuccRes v = false → acc'.cat = acc.cat ∧ acc'.sub = acc.sub) := by
  unfold summResult at h
  split at h
  · cases h
  · rename_i herr
    have h1 : isErrRes v = true := by simp [isErrRes, herr]
    have h2 : isSuccRes v = false := by simp [isSuccRes, herr]
    cases h
    simp [h1, h2]
  · rename_i herr
    have h1 : isErrRes v = false := by simp [isErrRes, herr]
    split at h
    · cases h
    · rename_i hpa
      have h2 : isSuccRes v = false := by simp [isSuccRes, herr, hpa]
      cases h
      simp [h1, h2]
    · rename_i hpa
      have h2 : isSuccRes v = true := by simp [isSuccRes, herr, hpa]
      split at h
      · cases h
      · split at h
        · cases h
        · have hc := summAreasFold_counts _ _ acc' h
          simp only [h1, h2, if_true, Bool.false_eq_true, if_false]
          refine ⟨?_, ?_, ?_⟩
          · simpa using hc.1
          · simpa using hc.2
          · intro hfalse
            cases hfalse

theorem summFold_spec (l : List (String × Json)) :
    ∀ (acc acc' : SummAcc),
      l.foldlM (fun a p => summResult a p.2) acc = Except.ok acc' →
      acc'.succ = acc.succ + countSucc l ∧
      acc'.errs = acc.errs + countErr l ∧
      (countSucc l = 0 → acc'.cat = acc.cat ∧ acc'.sub = acc.sub) := by
  induction l with
  | nil =>
      intro acc acc' h
      simp only [List.foldlM_nil] at h
      cases h
      simp [countSucc, countErr]
  | cons hd tl ih =>
      intro acc acc' h
      rw [List.foldlM_cons] at h
      cases hx : summResult acc hd.2 with
      | error e =>
          rw [hx] at h
          simp only [bind, Except.bind] at h
          cases h
      | ok a1 =>
          rw [hx] at h
          simp only [bind, Except.bind] at h
          have hstep := summResult_spec acc hd.2 a1 hx
          have htail := ih a1 acc' h
          have hcS : countSucc (hd :: tl)
              = countSucc tl + (if isSuccRes hd.2 then 1 else 0) := by
            simp [countSucc, List.countP_cons]
          have hcE : countErr (hd :: tl)
              = countErr tl + (if isErrRes hd.2 then 1 else 0) := by
            simp [countErr, List.countP_cons]
          refine ⟨?_, ?_, ?_⟩
          · rw [htail.1, hstep.1, hcS]; omega
          · rw [htail.2.1, hstep.2.1, hcE]; omega
          · intro hz
            rw [hcS] at hz
            have hz1 : countSucc tl = 0 := by omega
            have hz2 : isSuccRes hd.2 = false := by
              by_cases hb : isSuccRes hd.2
              · rw [if_pos hb] at hz; omega
              · simpa using hb
            have hp := hstep.2.2 hz2
            have hq := htail.2.2 hz1
            exact ⟨hq.1.trans hp.1, hq.2.trans hp.2⟩

theorem isErrRes_isSuccRes_disjoint (v : Json) :
    isErrRes v = true → isSuccRes v = false := by
  unfold isErrRes isSuccRes
  cases pyIn "error" v with
  | error e => simp
  | ok b => cases b <;> simp

theorem countSucc_add_countErr (l : List (String × Json)) :
    countSucc l + countErr l = l.countP (fun p => isErrRes p.2 || isSuccRes p.2) := by
  induction l with
  | nil => simp [countSucc, countErr]
  | cons hd tl ih =>
      simp only [countSucc, countErr, List.countP_cons] at ih ⊢
      by_cases he : isErrRes hd.2
      · have hs := isErrRes_isSuccRes_disjoint hd.2 he
        simp only [he, hs, Bool.true_or, if_true, Bool.false_eq_true, if_false]
        omega
      · by_cases hs : isSuccRes hd.2
        · simp only [he, hs, Bool.false_eq_true, if_false, if_true, Bool.false_or]
          omega
        · simp only [he, hs, Bool.false_eq_true, if_false, Bool.false_or]
          omega

/-- C9.  Counting in `generate_cluster_summary`: whenever the summary
computation completes, a result with an `error` key is tallied as an
error even when it also has a `primary_research_areas` key (the `elif`
of line 283 is skipped), a result with neither key lands in neither
tally, hence `successfully_processed + errors <= total_professors`, with
equality exactly when every result carries one of the two keys; and the
two distributions are accumulated only from results tallied as
successes — with no successes they stay empty. -/
theorem generate_cluster_summary_counts (results : List (String × Json)) (s : Summary)
    (h : generate_cluster_summary results = Except.ok s) :
    s.total_professors = results.length ∧
    s.errors = countErr results ∧
    s.successfully_processed = countSucc results ∧
    s.successfully_processed + s.errors ≤ s.total_professors ∧
    (s.successfully_processed + s.errors = s.total_professors ↔
        ∀ p ∈ results, (isErrRes p.2 || isSuccRes p.2) = true) ∧
    (countSucc results = 0 →
        s.category_distribution = [] ∧ s.subcategory_distribution = []) := by
  unfold generate_cluster_summary at h
  cases hf : results.foldlM (fun a p => summResult a p.2)
      (⟨0, 0, [], []⟩ : SummAcc) with
  | error e => rw [hf] at h; cases h
  | ok acc =>
      rw [hf] at h
      cases h
      have hspec := summFold_spec results ⟨0, 0, [], []⟩ acc hf
      have hsucc : acc.succ = countSucc results := by
        have := hspec.1; simpa using this
      have herrs : acc.errs = countErr results := by
        have := hspec.2.1; simpa using this
      have hsum := countSucc_add_countErr results
      refine ⟨rfl, herrs, hsucc, ?_, ?_, ?_⟩
      · simp only [hsucc, herrs]
        rw [hsum]
        exact List.countP_le_length _
      · simp only [hsucc, herrs]
        rw [hsum]
        exact List.countP_eq_length
      · intro hz
        have := hspec.2.2 hz
        exact ⟨this.1, this.2⟩

/-- Concrete results for the C9 witness: `A` has both keys (tallied as
an error), `B` has neither key, `C` is a clean success. -/
def resultsW9 : List (String × Json) :=
  [("A", Json.obj [("error", Json.str "x"), ("primary_research_areas", Json.arr [])]),
   ("B", Json.obj []),
   ("C", Json.obj [("primary_research_areas",
      Json.arr [Json.obj [("top_level", Json.str "Theory"),
                          ("subcategories", Json.arr [Json.str "Logic"])]])])]

/-- The summary computed on `resultsW9`. -/
def summaryW9 : Summary :=
  { total_professors := 3
    successfully_processed := 1
    errors := 1
    category_distribution := [(Json.str "Theory", 1)]
    subcategory_distribution := [(Json.str "Logic", 1)] }

/-- Witness for C9 at `resultsW9`: one error, one success, one result in
neither tally, so the counts sum strictly below the total. -/
theorem generate_cluster_summary_counts_witness :
    summaryW9.errors = countErr resultsW9 ∧
    summaryW9.successfully_processed = countSucc resultsW9 ∧
    summaryW9.successfully_processed + summaryW9.errors ≤ summaryW9.total_professors := by
  have h := generate_cluster_summary_counts resultsW9 summaryW9 rfl
  exact ⟨h.2.1, h.2.2.1, h.2.2.2.1⟩

end SuperviseMe
